import Mathlib

/-!
Shallow embedding of the minicode server core: the tenant-scoped repository
layer (`ProjectsRepository`, `ProjectFilesRepository`, `AgentStatesRepository`),
the WebSocket client-message validator, and the per-connection command handlers
(`handleStartGeneration`, `handleStopGeneration`, `handleUserMessage`).

The relational store is modelled as lists of rows inside a `Db` record;
Drizzle queries become list traversals with the same `WHERE` predicates.
Timestamps are abstract `Nat` ticks passed in as a `now` argument (the source
reads the wall clock); `jsonb` columns with a `[]` default are modelled as
plain lists. JavaScript's `a ?? b` on nullable values becomes `coalesce` on
`Option`, and `undefined`-vs-`null` distinctions on optional input fields
become `Option (Option _)`.
-/

namespace Minicode

/-- JSON-like values as produced by `JSON.parse`: the possible shapes of a
decoded WebSocket payload. -/
inductive Json where
  | null
  | bool (b : Bool)
  | num (n : Int)
  | str (s : String)
  | arr (elems : List Json)
  | obj (fields : List (String × Json))

/-- JavaScript property access `o.key` on a plain object: the first binding of
`key`, or `none` when the property is absent (`undefined`). -/
def jsonLookup (fields : List (String × Json)) (key : String) : Option Json :=
  (fields.find? (fun field => field.1 == key)).map (fun field => field.2)

/-- JavaScript's nullish coalescing `a ?? b` on nullable values: `b` exactly
when `a` is `null`/`undefined`. -/
def coalesce {α : Type} : Option α → Option α → Option α
  | some v, _ => some v
  | none, b => b

/-- `String.prototype.trim` on the character list of a string (the whitespace
set is modelled by `Char.isWhitespace`). -/
def trimChars (cs : List Char) : List Char :=
  ((cs.dropWhile Char.isWhitespace).reverse.dropWhile Char.isWhitespace).reverse

/-- `String.prototype.trim`, as applied by the zod `.trim()` transform. -/
def jsTrim (s : String) : String :=
  ⟨trimChars s.data⟩

/-- `WebSocketErrorCode` from `server/websocket/types.ts`. -/
inductive WsErrorCode where
  | invalidMessage
  | invalidMessageData
  | unknownMessageType
  | projectAccessDenied
  | notImplemented
  | internalError
  | generationInProgress
  | generationNotInProgress
deriving DecidableEq, Repr

/-- `WebSocketErrorData`: the `{code, message}` payload of an `error` frame. -/
structure WsErrorData where
  code : WsErrorCode
  message : String
deriving DecidableEq, Repr

/-- `CLIENT_MESSAGE_TYPES` from `server/websocket/types.ts`: the closed set of
five client command names. -/
def CLIENT_MESSAGE_TYPES : List String :=
  ["start_generation", "stop_generation", "user_message", "get_state", "get_preview_url"]

/-- `ValidatedClientMessage`: a decoded command. Control commands carry their
(untyped) `data` object through; `user_message` carries the parsed content. -/
inductive ValidatedClientMessage where
  | startGeneration (data : List (String × Json))
  | stopGeneration (data : List (String × Json))
  | getState (data : List (String × Json))
  | getPreviewUrl (data : List (String × Json))
  | userMessage (content : String)

/-- `ClientMessageValidationResult`: a typed command or a typed validation
error. -/
abbrev ClientMessageValidationResult := Except WsErrorData ValidatedClientMessage

/-- `toPlainObject` from `server/websocket/validators.ts`: `some fields` only
for a plain (non-array, non-null) object. -/
def toPlainObject : Json → Option (List (String × Json))
  | .obj fields => some fields
  | _ => none

/-- The zod schema `z.object({ content: z.string().trim().min(1) })`
(`userMessageDataSchema`): `safeParse` succeeds with the trimmed content
exactly when `content` is a string whose trimmed form has length at least 1. -/
def userMessageDataSchemaParse (data : List (String × Json)) : Option String :=
  match jsonLookup data "content" with
  | some (.str content) =>
    let trimmed := jsTrim content
    if 1 ≤ trimmed.length then some trimmed else none
  | _ => none

/-- `envelope.data ?? {}` in the validator: an absent or `null` `data`
property defaults to the empty object. -/
def normalizedDataOf (envelope : List (String × Json)) : Json :=
  match jsonLookup envelope "data" with
  | none => .obj []
  | some .null => .obj []
  | some d => d

/-- `validateClientMessage` from `server/websocket/validators.ts`. The
`TextDecoder`/`JSON.parse` front end is modelled by the `Except Unit Json`
argument: `.error` is a thrown `JSON.parse`, `.ok` its decoded value. -/
def validateClientMessage (parsedPayload : Except Unit Json) : ClientMessageValidationResult :=
  match parsedPayload with
  | .error _ =>
    .error ⟨.invalidMessage,
      "WebSocket message must be valid JSON and follow the \x7b type, data \x7d shape"⟩
  | .ok messagePayload =>
    match toPlainObject messagePayload with
    | none =>
      .error ⟨.invalidMessage, "WebSocket message must be an object with a string type field"⟩
    | some envelope =>
      match jsonLookup envelope "type" with
      | some (.str msgType) =>
        if CLIENT_MESSAGE_TYPES.contains msgType then
          match toPlainObject (normalizedDataOf envelope) with
          | none => .error ⟨.invalidMessageData, "WebSocket message \"data\" must be an object"⟩
          | some data =>
            match msgType with
            | "start_generation" => .ok (.startGeneration data)
            | "stop_generation" => .ok (.stopGeneration data)
            | "get_state" => .ok (.getState data)
            | "get_preview_url" => .ok (.getPreviewUrl data)
            | "user_message" =>
              match userMessageDataSchemaParse data with
              | some content => .ok (.userMessage content)
              | none =>
                .error ⟨.invalidMessageData,
                  "\"user_message\" requires data.content as a non-empty string"⟩
            | _ => .error ⟨.unknownMessageType, "Unknown message type \"" ++ msgType ++ "\""⟩
        else
          .error ⟨.unknownMessageType, "Unknown message type \"" ++ msgType ++ "\""⟩
      | _ => .error ⟨.invalidMessage, "WebSocket message \"type\" must be a string"⟩

/-- The canonical decoded envelope of a `user_message` frame
`{"type": "user_message", "data": {...}}`, parameterized by the fields of its
`data` object. -/
def userMessageEnvelope (dataFields : List (String × Json)) : Json :=
  .obj [("type", .str "user_message"), ("data", .obj dataFields)]

/-- A row of the `projects` table (`shared/db/schema.ts`). -/
structure Project where
  id : String
  name : String
  description : Option String
  createdAt : Nat
  updatedAt : Nat
  userId : String
  status : String
  previewUrl : Option String
  sandboxId : Option String
deriving DecidableEq, Repr

/-- A row of the `project_files` table; `(projectId, path)` is unique. -/
structure ProjectFile where
  id : String
  projectId : String
  path : String
  content : String
  createdAt : Nat
  updatedAt : Nat
deriving DecidableEq, Repr

/-- One `{path, purpose}` entry of a phase descriptor (`shared/types.ts`). -/
structure PhaseFileRef where
  path : String
  purpose : String
deriving DecidableEq, Repr

/-- A phase descriptor stored in `agent_states.phases` (`shared/types.ts`). -/
structure Phase where
  name : String
  description : String
  files : List PhaseFileRef
  isLastPhase : Bool
deriving DecidableEq, Repr

/-- A `Message` of `conversationHistory` (`shared/types.ts`). -/
structure ChatMessage where
  role : String
  content : String
  timestamp : String
deriving DecidableEq, Repr

/-- A row of the `agent_states` table; `projectId` is unique (one RunState row
per project). -/
structure AgentState where
  id : String
  projectId : String
  currentState : String
  currentPhase : Option Int
  phases : List Phase
  sandboxId : Option String
  previewUrl : Option String
  generatedFiles : List String
  conversationHistory : List ChatMessage
  createdAt : Nat
  updatedAt : Nat
deriving DecidableEq, Repr

/-- The relational store: one list of rows per table. -/
structure Db where
  projects : List Project
  projectFiles : List ProjectFile
  agentStates : List AgentState
deriving DecidableEq, Repr

/-- A raised Postgres error, as seen by `isDatabaseUniqueViolation`: a unique
violation carries SQLSTATE code `23505`. -/
inductive StoreError where
  | uniqueViolation (constraintName : String)
  | other (message : String)
deriving DecidableEq, Repr

/-- `isDatabaseUniqueViolation` from `server/services/types.ts`: true exactly
for errors whose `code` is `"23505"`. -/
def isDatabaseUniqueViolation : StoreError → Bool
  | .uniqueViolation _ => true
  | .other _ => false

/-- An error surfaced by a repository method: either the raw store error
(untranslated) or the distinguished `UniqueConstraintError` kind. -/
inductive RepoError where
  | store (cause : StoreError)
  | uniqueConstraint (message : String) (cause : StoreError)
deriving DecidableEq, Repr

/-- Whether a repository call surfaced the distinguished
`UniqueConstraintError` kind (what a caller branching on error kind sees). -/
def surfacesUniqueConstraint {α : Type} : Except RepoError α → Bool
  | .error (.uniqueConstraint _ _) => true
  | _ => false

/-- `CreateProjectInput` (`server/services/types.ts`); an absent and a `null`
description both yield a `NULL` column, so they are collapsed to one `Option`. -/
structure CreateProjectInput where
  id : String
  userId : String
  name : String
  description : Option String
deriving DecidableEq, Repr

/-- `ProjectUpdatePatch`: every patchable column is optional; for nullable
columns the inner `Option` is the stored value, the outer one is presence. -/
structure ProjectUpdatePatch where
  name : Option String
  description : Option (Option String)
  status : Option String
  previewUrl : Option (Option String)
  sandboxId : Option (Option String)
deriving DecidableEq, Repr

/-- `Object.keys(patch).length === 0`: no field of the patch is present. -/
def ProjectUpdatePatch.isEmpty (patch : ProjectUpdatePatch) : Bool :=
  patch.name.isNone && patch.description.isNone && patch.status.isNone &&
    patch.previewUrl.isNone && patch.sandboxId.isNone

/-- `UPDATE projects SET <patch>`: present fields overwrite, and the schema's
`$onUpdate` refreshes `updatedAt`. -/
def applyProjectPatch (project : Project) (patch : ProjectUpdatePatch) (now : Nat) : Project :=
  { project with
    name := patch.name.getD project.name
    description := patch.description.getD project.description
    status := patch.status.getD project.status
    previewUrl := patch.previewUrl.getD project.previewUrl
    sandboxId := patch.sandboxId.getD project.sandboxId
    updatedAt := now }

/-- The private `canAccessProject` ownership probe shared (verbatim) by
`ProjectFilesRepository` and `AgentStatesRepository`: does a project row with
this `(id, userId)` pair exist? -/
def canAccessProject (db : Db) (projectId userId : String) : Bool :=
  db.projects.any (fun p => p.id == projectId && p.userId == userId)

namespace ProjectsRepository

/-- `ProjectsRepository.getByIdForUser`: `SELECT ... WHERE id = projectId AND
userId = userId`, first row or `null`. -/
def getByIdForUser (db : Db) (projectId userId : String) : Option Project :=
  db.projects.find? (fun p => p.id == projectId && p.userId == userId)

/-- `ProjectsRepository.create`: a plain `INSERT ... RETURNING` with no
try/catch — a duplicate primary key surfaces as the raw store error. -/
def create (db : Db) (input : CreateProjectInput) (now : Nat) :
    Except RepoError (Db × Project) :=
  if db.projects.any (fun p => p.id == input.id) then
    .error (.store (.uniqueViolation "projects_pkey"))
  else
    let project : Project :=
      { id := input.id, name := input.name, description := input.description,
        createdAt := now, updatedAt := now, userId := input.userId,
        status := "idle", previewUrl := none, sandboxId := none }
    .ok ({ db with projects := db.projects ++ [project] }, project)

/-- `ProjectsRepository.updateForUser`: an empty patch short-circuits to
`getByIdForUser`; otherwise `UPDATE ... WHERE id AND userId ... RETURNING`. -/
def updateForUser (db : Db) (projectId userId : String) (patch : ProjectUpdatePatch)
    (now : Nat) : Db × Option Project :=
  if patch.isEmpty then
    (db, getByIdForUser db projectId userId)
  else
    ({ db with
        projects := db.projects.map (fun p =>
          if p.id == projectId && p.userId == userId then applyProjectPatch p patch now else p) },
      (db.projects.find? (fun p => p.id == projectId && p.userId == userId)).map
        (fun p => applyProjectPatch p patch now))

/-- `ProjectsRepository.deleteForUser`: `DELETE ... WHERE id AND userId
RETURNING`, `true` iff a row was removed; the store's `ON DELETE CASCADE`
removes the project's files and agent state. -/
def deleteForUser (db : Db) (projectId userId : String) : Db × Bool :=
  let deleted := db.projects.filter (fun p => p.id == projectId && p.userId == userId)
  ({ projects := db.projects.filter (fun p => !(p.id == projectId && p.userId == userId)),
     projectFiles := db.projectFiles.filter (fun f => !(deleted.any (fun p => p.id == f.projectId))),
     agentStates := db.agentStates.filter (fun s => !(deleted.any (fun p => p.id == s.projectId))) },
    !deleted.isEmpty)

end ProjectsRepository

/-- `UpsertProjectFileInput` (`server/services/types.ts`). -/
structure UpsertProjectFileInput where
  id : String
  projectId : String
  path : String
  content : String
  userId : String
deriving DecidableEq, Repr

/-- The per-input ownership re-check `upsertMany` performs inside its
transaction: does the input's parent project, owned by the input's `userId`,
exist among the project rows? -/
def ownsFileInput (projectRows : List Project) (input : UpsertProjectFileInput) : Bool :=
  projectRows.any (fun p => p.id == input.projectId && p.userId == input.userId)

namespace ProjectFilesRepository

/-- `ProjectFilesRepository.upsertFile`: ownership check, then
`INSERT ... ON CONFLICT (projectId, path) DO UPDATE`; a unique violation not
absorbed by the conflict target (the `id` primary key) is caught and wrapped
as `UniqueConstraintError`. -/
def upsertFile (db : Db) (input : UpsertProjectFileInput) (now : Nat) :
    Except RepoError (Db × Option ProjectFile) :=
  if !canAccessProject db input.projectId input.userId then
    .ok (db, none)
  else
    match db.projectFiles.find? (fun f => f.projectId == input.projectId && f.path == input.path) with
    | some existing =>
      let updated := { existing with content := input.content, updatedAt := now }
      .ok ({ db with
              projectFiles := db.projectFiles.map (fun f =>
                if f.projectId == input.projectId && f.path == input.path then updated else f) },
            some updated)
    | none =>
      if db.projectFiles.any (fun f => f.id == input.id) then
        .error (.uniqueConstraint
          ("Duplicate file write detected for " ++ input.projectId ++ ":" ++ input.path)
          (.uniqueViolation "project_files_pkey"))
      else
        let file : ProjectFile :=
          { id := input.id, projectId := input.projectId, path := input.path,
            content := input.content, createdAt := now, updatedAt := now }
        .ok ({ db with projectFiles := db.projectFiles ++ [file] }, some file)

/-- The per-input loop body of `upsertMany` inside the transaction: re-check
ownership from the transaction (`continue` skips a foreign input), then
upsert on `(projectId, path)` counting each applied row; an unabsorbed unique
violation aborts the whole transaction. -/
def upsertManyGo (projectRows : List Project) (files : List ProjectFile)
    (inputs : List UpsertProjectFileInput) (now changed : Nat) :
    Except RepoError (List ProjectFile × Nat) :=
  match inputs with
  | [] => .ok (files, changed)
  | file :: rest =>
    if ownsFileInput projectRows file then
      match files.find? (fun f => f.projectId == file.projectId && f.path == file.path) with
      | some existing =>
        upsertManyGo projectRows
          (files.map (fun f =>
            if f.projectId == file.projectId && f.path == file.path then
              { existing with content := file.content, updatedAt := now }
            else f))
          rest now (changed + 1)
      | none =>
        if files.any (fun f => f.id == file.id) then
          .error (.uniqueConstraint "Bulk project file upsert violated a unique constraint"
            (.uniqueViolation "project_files_pkey"))
        else
          upsertManyGo projectRows
            (files ++ [{ id := file.id, projectId := file.projectId, path := file.path,
                         content := file.content, createdAt := now, updatedAt := now }])
            rest now (changed + 1)
    else
      upsertManyGo projectRows files rest now changed

/-- `ProjectFilesRepository.upsertMany`: empty input short-circuits to 0;
otherwise one transaction applying each input independently and returning the
changed-row count. -/
def upsertMany (db : Db) (inputs : List UpsertProjectFileInput) (now : Nat) :
    Except RepoError (Db × Nat) :=
  if inputs.isEmpty then
    .ok (db, 0)
  else
    (upsertManyGo db.projects db.projectFiles inputs now 0).map
      (fun result => ({ db with projectFiles := result.1 }, result.2))

end ProjectFilesRepository

/-- `UpsertAgentStateInput` (`server/services/types.ts`): `currentState` and
`currentPhase` are always supplied; the other five columns are optional, with
`Option (Option _)` separating "absent" from "set to null" where the column is
nullable. -/
structure UpsertAgentStateInput where
  id : String
  projectId : String
  userId : String
  currentState : String
  sandboxId : Option (Option String)
  previewUrl : Option (Option String)
  currentPhase : Option Int
  phases : Option (List Phase)
  generatedFiles : Option (List String)
  conversationHistory : Option (List ChatMessage)
deriving DecidableEq, Repr

namespace AgentStatesRepository

/-- `AgentStatesRepository.getByProjectForUser`: `SELECT ... FROM agent_states
INNER JOIN projects ON projects.id = agent_states.projectId AND projects.userId
= userId WHERE agent_states.projectId = projectId LIMIT 1`. -/
def getByProjectForUser (db : Db) (projectId userId : String) : Option AgentState :=
  if canAccessProject db projectId userId then
    db.agentStates.find? (fun s => s.projectId == projectId)
  else
    none

/-- The `ON CONFLICT (projectId) DO UPDATE` merge `set` of `upsertForProject`:
`currentState`/`currentPhase`/`updatedAt` overwrite unconditionally; each
optional field overwrites only when present in the input (the conditional
spreads `...(input.x !== undefined ? { x: input.x } : {})`). -/
def mergedState (existing : AgentState) (input : UpsertAgentStateInput) (now : Nat) :
    AgentState :=
  { existing with
    currentState := input.currentState
    currentPhase := input.currentPhase
    updatedAt := now
    phases := input.phases.getD existing.phases
    generatedFiles := input.generatedFiles.getD existing.generatedFiles
    conversationHistory := input.conversationHistory.getD existing.conversationHistory
    sandboxId := input.sandboxId.getD existing.sandboxId
    previewUrl := input.previewUrl.getD existing.previewUrl }

/-- `AgentStatesRepository.upsertForProject`: ownership check first (`none`
when the project is foreign), then `INSERT ... ON CONFLICT (projectId) DO
UPDATE` with `mergedState` as the conflict action. The source additionally
wraps its insert in a catch translating `isDatabaseUniqueViolation` errors
into `UniqueConstraintError`; that catch can only fire on a unique violation
the `(projectId)` conflict target does not absorb (an `id` primary-key clash
while inserting a fresh row), a path the handlers never reach because they
reuse the existing row's `id`. The embedding therefore models the method as
total and leaves that translation out of scope here; the same
catch-and-translate pattern is modelled faithfully on the file-upsert paths
(`upsertFile`, `upsertManyGo`). -/
def upsertForProject (db : Db) (input : UpsertAgentStateInput) (now : Nat) :
    Db × Option AgentState :=
  if !canAccessProject db input.projectId input.userId then
    (db, none)
  else
    match db.agentStates.find? (fun s => s.projectId == input.projectId) with
    | some existing =>
      ({ db with
          agentStates := db.agentStates.map (fun s =>
            if s.projectId == input.projectId then mergedState existing input now else s) },
        some (mergedState existing input now))
    | none =>
      let inserted : AgentState :=
        { id := input.id, projectId := input.projectId,
          currentState := input.currentState, currentPhase := input.currentPhase,
          phases := input.phases.getD [],
          sandboxId := input.sandboxId.getD none,
          previewUrl := input.previewUrl.getD none,
          generatedFiles := input.generatedFiles.getD [],
          conversationHistory := input.conversationHistory.getD [],
          createdAt := now, updatedAt := now }
      ({ db with agentStates := db.agentStates ++ [inserted] }, some inserted)

end AgentStatesRepository

/-- `ProjectWebSocketConnection`: the cached authorized session. -/
structure ProjectWebSocketConnection where
  connectionId : String
  projectId : String
  userId : String
deriving DecidableEq, Repr

/-- `StateUpdateData` (`shared/types.ts`): the snapshot payload. -/
structure StateUpdateData where
  currentState : String
  currentPhase : Option Int
  totalPhases : Nat
  generatedFiles : List String
  previewUrl : Option String
deriving DecidableEq, Repr

/-- The outbound server frames the handlers emit
(`ProjectWebSocketServerMessage`, restricted to the variants the implemented
handlers produce). -/
inductive ServerMessage where
  | agentConnected (projectId : String)
  | stateUpdate (data : StateUpdateData)
  | previewUrl (url : Option String)
  | error (data : WsErrorData)
deriving DecidableEq, Repr

/-- An observable effect on the socket: `ws.send(...)` or `ws.close(code,
reason)`, in emission order. -/
inductive WsEvent where
  | sent (message : ServerMessage)
  | closed (code : Nat) (reason : String)
deriving DecidableEq, Repr

/-- `sendErrorMessage` followed by `ws.close(code, reason)`. -/
def errorAndClose (code : WsErrorCode) (message : String) (closeCode : Nat)
    (closeReason : String) : List WsEvent :=
  [.sent (.error ⟨code, message⟩), .closed closeCode closeReason]

/-- `handleStartGeneration` from `server/websocket/handler.ts`: re-check
project ownership, require an existing agent state, refuse when already
`generating`, otherwise reset the run (state `generating`, phase 0, cleared
`phases`/`generatedFiles`/`conversationHistory`) and reply with a snapshot. -/
def handleStartGeneration (db : Db) (connection : ProjectWebSocketConnection) (now : Nat) :
    Db × List WsEvent :=
  match ProjectsRepository.getByIdForUser db connection.projectId connection.userId with
  | none =>
    (db, errorAndClose .projectAccessDenied
      "Project not found or not accessible for this user" 4003 "Forbidden")
  | some _project =>
    match AgentStatesRepository.getByProjectForUser db connection.projectId connection.userId with
    | none => (db, errorAndClose .internalError "Agent state not found" 4004 "Not Found")
    | some agentState =>
      if agentState.currentState == "generating" then
        (db, errorAndClose .generationInProgress "Generation already in progress" 4000 "Conflict")
      else
        let upserted := AgentStatesRepository.upsertForProject db
          { id := agentState.id, projectId := connection.projectId,
            userId := connection.userId, currentState := "generating",
            currentPhase := some 0, phases := some [], generatedFiles := some [],
            conversationHistory := some [], sandboxId := none, previewUrl := none } now
        (upserted.1,
          [.sent (.stateUpdate
            { currentState := "generating", currentPhase := some 0, totalPhases := 0,
              generatedFiles := [], previewUrl := agentState.previewUrl })])

/-- `handleStopGeneration` from `server/websocket/handler.ts`: require an
existing agent state in state `generating`, then upsert `currentState := idle`,
`currentPhase := null`, `phases := []` (the input omits `generatedFiles`,
`conversationHistory`, `sandboxId`, `previewUrl`), and reply with a snapshot
built from the returned row (`stopped?.x ?? agentState.x ?? ...`, where the
local `agentState.generatedFiles` was mutated to `[]`). -/
def handleStopGeneration (db : Db) (connection : ProjectWebSocketConnection) (now : Nat) :
    Db × List WsEvent :=
  match AgentStatesRepository.getByProjectForUser db connection.projectId connection.userId with
  | none => (db, errorAndClose .internalError "Agent state not found" 4004 "Not Found")
  | some agentState =>
    if agentState.currentState != "generating" then
      (db, errorAndClose .generationNotInProgress "Generation not in progress" 4000 "Conflict")
    else
      let upserted := AgentStatesRepository.upsertForProject db
        { id := agentState.id, projectId := connection.projectId,
          userId := connection.userId, currentState := "idle", currentPhase := none,
          phases := some [], generatedFiles := none, conversationHistory := none,
          sandboxId := none, previewUrl := none } now
      let stopped := upserted.2
      (upserted.1,
        [.sent (.stateUpdate
          { currentState := "idle", currentPhase := none, totalPhases := 0,
            generatedFiles := (stopped.map (fun s => s.generatedFiles)).getD [],
            previewUrl := coalesce (stopped.bind (fun s => s.previewUrl))
              agentState.previewUrl })])

/-- `handleUserMessage` from `server/websocket/handler.ts`: require an existing
agent state, append `{role: "user", content, timestamp}` to the conversation
history, upsert it (leaving `currentState`/`currentPhase` at their current
values, omitting the other fields), and reply with a snapshot. `timestamp` is
the `new Date().toISOString()` string. -/
def handleUserMessage (db : Db) (connection : ProjectWebSocketConnection) (content : String)
    (now : Nat) (timestamp : String) : Db × List WsEvent :=
  match AgentStatesRepository.getByProjectForUser db connection.projectId connection.userId with
  | none => (db, errorAndClose .internalError "Agent state not found" 4004 "Not Found")
  | some agentState =>
    let conversationHistory :=
      agentState.conversationHistory ++ [⟨"user", content, timestamp⟩]
    let upserted := AgentStatesRepository.upsertForProject db
      { id := agentState.id, projectId := connection.projectId,
        userId := connection.userId, currentState := agentState.currentState,
        currentPhase := agentState.currentPhase, phases := none,
        generatedFiles := none, conversationHistory := some conversationHistory,
        sandboxId := none, previewUrl := none } now
    let updatedState := upserted.2
    let nextPhases := (updatedState.map (fun s => s.phases)).getD agentState.phases
    let nextGeneratedFiles :=
      (updatedState.map (fun s => s.generatedFiles)).getD agentState.generatedFiles
    let nextPreviewUrl :=
      coalesce (updatedState.bind (fun s => s.previewUrl)) agentState.previewUrl
    (upserted.1,
      [.sent (.stateUpdate
        { currentState := (updatedState.map (fun s => s.currentState)).getD agentState.currentState,
          currentPhase := coalesce (updatedState.bind (fun s => s.currentPhase))
            agentState.currentPhase,
          totalPhases := nextPhases.length,
          generatedFiles := nextGeneratedFiles,
          previewUrl := nextPreviewUrl })])

/-! Concrete rows and stores used to evaluate the theorems on explicit
inputs. -/

/-- A project row owned by user `u1`. -/
def exProject1 : Project :=
  { id := "p1", name := "Demo", description := none, createdAt := 0, updatedAt := 0,
    userId := "u1", status := "idle", previewUrl := none, sandboxId := none }

/-- A store holding only `exProject1` (no files, no agent state). -/
def exDbBare : Db := ⟨[exProject1], [], []⟩

/-- A non-empty patch (only `status` present). -/
def exPatchStatus : ProjectUpdatePatch :=
  { name := none, description := none, status := some "archived",
    previewUrl := none, sandboxId := none }

/-- A stored phase descriptor. -/
def exPhase : Phase :=
  ⟨"phase-1", "base", [⟨"src/main.ts", "bootstrap"⟩], false⟩

/-- A stored conversation message. -/
def exChatMessage : ChatMessage := ⟨"user", "continue building", "t0"⟩

/-- An agent state mid-generation with every preservable field populated. -/
def exGeneratingState : AgentState :=
  { id := "s1", projectId := "p1", currentState := "generating", currentPhase := some 3,
    phases := [exPhase], sandboxId := some "sandbox_2",
    previewUrl := some "http://localhost:5174", generatedFiles := ["src/main.ts"],
    conversationHistory := [exChatMessage], createdAt := 0, updatedAt := 0 }

/-- A store with `exProject1` and `exGeneratingState`. -/
def exDbGenerating : Db := ⟨[exProject1], [], [exGeneratingState]⟩

/-- The owner's authorized connection to project `p1`. -/
def exConn : ProjectWebSocketConnection := ⟨"c1", "p1", "u1"⟩

/-- An upsert input carrying only a new `currentState` (all optional fields
omitted). -/
def exStateOnlyInput : UpsertAgentStateInput :=
  { id := "s1", projectId := "p1", userId := "u1", currentState := "completed",
    sandboxId := none, previewUrl := none, currentPhase := none, phases := none,
    generatedFiles := none, conversationHistory := none }

/-- Bulk-upsert input targeting the owned project `p1`. -/
def exBulkInputA : UpsertProjectFileInput :=
  ⟨"f_a", "p1", "src/a.ts", "a-content", "u1"⟩

/-- Bulk-upsert input whose parent project `p2` does not exist for `u1`:
the foreign input of the batch. -/
def exBulkInputForeign : UpsertProjectFileInput :=
  ⟨"f_b", "p2", "src/b.ts", "b-content", "u1"⟩

/-- Second owned bulk-upsert input. -/
def exBulkInputC : UpsertProjectFileInput :=
  ⟨"f_c", "p1", "src/c.ts", "c-content", "u1"⟩

/-- The row `exBulkInputA` inserts when applied at tick 9. -/
def exBulkRowA : ProjectFile :=
  { id := "f_a", projectId := "p1", path := "src/a.ts", content := "a-content",
    createdAt := 9, updatedAt := 9 }

/-- The row `exBulkInputC` inserts when applied at tick 9. -/
def exBulkRowC : ProjectFile :=
  { id := "f_c", projectId := "p1", path := "src/c.ts", content := "c-content",
    createdAt := 9, updatedAt := 9 }

/-- The store after bulk-upserting `[A, foreign, C]` into `exDbBare` at tick
9: the two owned inputs landed, the foreign one did not. -/
def exDbAfterBulk : Db := { exDbBare with projectFiles := [exBulkRowA, exBulkRowC] }

/-- A stored project file row with id `f1`. -/
def exFileRow : ProjectFile :=
  { id := "f1", projectId := "p1", path := "src/a.ts", content := "old",
    createdAt := 0, updatedAt := 0 }

/-- A store with `exProject1` and `exFileRow`. -/
def exDbWithFile : Db := ⟨[exProject1], [exFileRow], []⟩

/-- A create input colliding with `exProject1` on the primary key. -/
def exDupCreateInput : CreateProjectInput :=
  ⟨"p1", "u1", "Demo again", none⟩

/-- An upsert-file input reusing the taken id `f1` on a fresh
`(projectId, path)` key, so the insert hits the primary-key constraint. -/
def exDupIdFileInput : UpsertProjectFileInput :=
  ⟨"f1", "p1", "src/fresh.ts", "fresh", "u1"⟩

/-! Helper lemmas about list traversals. -/

theorem map_id_of_fix {α : Type} {l : List α} {f : α → α}
    (h : ∀ x ∈ l, f x = x) : l.map f = l := by
  induction l with
  | nil => rfl
  | cons x xs ih =>
    simp only [List.map_cons, List.cons.injEq]
    exact ⟨h x (List.mem_cons_self x xs),
      ih (fun y hy => h y (List.mem_cons_of_mem x hy))⟩

theorem find?_map_of_pred {α : Type} (l : List α) (p : α → Bool) (f : α → α)
    (hf : ∀ x, p (f x) = p x) : (l.map f).find? p = (l.find? p).map f := by
  induction l with
  | nil => rfl
  | cons x xs ih =>
    cases hx : p x with
    | false => simp [List.find?_cons, hf x, hx, ih]
    | true => simp [List.find?_cons, hf x, hx]

/-- C1: for every project `P` and every user `U` who owns no project with
`P`'s id (in particular, a non-owner of an existing `P`), the three
owner-scoped project operations return `none`, `(db, none)` and `(db, false)`
respectively — exactly their results when no project with that id exists —
and the store, `P`'s row included, is unchanged. -/
theorem projects_nonOwner_indistinguishable (db : Db) (pid uid : String)
    (patch : ProjectUpdatePatch) (now : Nat)
    (h : ∀ p ∈ db.projects, p.id = pid → p.userId ≠ uid) :
    ProjectsRepository.getByIdForUser db pid uid = none ∧
    ProjectsRepository.updateForUser db pid uid patch now = (db, none) ∧
    ProjectsRepository.deleteForUser db pid uid = (db, false) := by
  have hpred : ∀ p ∈ db.projects, (p.id == pid && p.userId == uid) = false := by
    intro p hp
    by_cases hid : p.id = pid
    · have : p.userId ≠ uid := h p hp hid
      simp [hid, this]
    · simp [hid]
  have hfind : db.projects.find? (fun p => p.id == pid && p.userId == uid) = none := by
    rw [List.find?_eq_none]
    intro p hp
    simp [hpred p hp]
  refine ⟨hfind, ?_, ?_⟩
  · unfold ProjectsRepository.updateForUser
    by_cases hemp : patch.isEmpty
    · rw [if_pos hemp]
      unfold ProjectsRepository.getByIdForUser
      rw [hfind]
    · have hmap : db.projects.map (fun p =>
          if p.id == pid && p.userId == uid then applyProjectPatch p patch now else p) =
          db.projects :=
        map_id_of_fix (fun p hp => by simp [hpred p hp])
      rw [if_neg hemp, hmap, hfind]
      rfl
  · have hdel : db.projects.filter (fun p => p.id == pid && p.userId == uid) = [] := by
      rw [List.filter_eq_nil_iff]
      intro p hp
      simp [hpred p hp]
    have hkeep : db.projects.filter (fun p => !(p.id == pid && p.userId == uid)) =
        db.projects := by
      rw [List.filter_eq_self]
      intro p hp
      simp [hpred p hp]
    simp only [ProjectsRepository.deleteForUser]
    rw [hdel, hkeep]
    simp

/-- C1 witness: the theorem evaluated for the store holding only `p1` (owned
by `u1`) and the foreign user `u2`, with a non-empty patch. -/
theorem projects_nonOwner_indistinguishable_witness :
    ProjectsRepository.getByIdForUser exDbBare "p1" "u2" = none ∧
    ProjectsRepository.updateForUser exDbBare "p1" "u2" exPatchStatus 3 = (exDbBare, none) ∧
    ProjectsRepository.deleteForUser exDbBare "p1" "u2" = (exDbBare, false) :=
  projects_nonOwner_indistinguishable exDbBare "p1" "u2" exPatchStatus 3 (by decide)

theorem getByProjectForUser_some {db : Db} {pid uid : String} {st : AgentState}
    (h : AgentStatesRepository.getByProjectForUser db pid uid = some st) :
    canAccessProject db pid uid = true ∧
    db.agentStates.find? (fun s => s.projectId == pid) = some st := by
  unfold AgentStatesRepository.getByProjectForUser at h
  split at h
  · next hacc => exact ⟨by simpa using hacc, h⟩
  · cases h

theorem getByIdForUser_isSome_of_canAccess {db : Db} {pid uid : String}
    (h : canAccessProject db pid uid = true) :
    ∃ p, ProjectsRepository.getByIdForUser db pid uid = some p := by
  unfold canAccessProject at h
  rw [List.any_eq_true] at h
  obtain ⟨p, hp, hpred⟩ := h
  have hs : (db.projects.find? (fun q => q.id == pid && q.userId == uid)).isSome := by
    rw [List.find?_isSome]
    exact ⟨p, hp, hpred⟩
  exact Option.isSome_iff_exists.mp hs

theorem upsertForProject_existing {db : Db} {input : UpsertAgentStateInput} {st : AgentState}
    (now : Nat)
    (hacc : canAccessProject db input.projectId input.userId = true)
    (hfind : db.agentStates.find? (fun s => s.projectId == input.projectId) = some st) :
    AgentStatesRepository.upsertForProject db input now =
      ({ db with agentStates := db.agentStates.map (fun s =>
          if s.projectId == input.projectId then AgentStatesRepository.mergedState st input now
          else s) },
        some (AgentStatesRepository.mergedState st input now)) := by
  unfold AgentStatesRepository.upsertForProject
  rw [hacc, hfind]
  rfl

theorem find?_some_pred {α : Type} {l : List α} {p : α → Bool} {a : α}
    (h : l.find? p = some a) : p a = true :=
  List.find?_some h

theorem find?_map_update {α : Type} {l : List α} {p : α → Bool} {st m : α}
    (hfind : l.find? p = some st) (hm : p m = true) :
    (l.map (fun x => if p x then m else x)).find? p = some m := by
  have hpres : ∀ x, p (if p x then m else x) = p x := by
    intro x
    by_cases hx : p x = true
    · rw [if_pos hx, hx, hm]
    · rw [if_neg hx]
  have hst : p st = true := find?_some_pred hfind
  rw [find?_map_of_pred _ _ _ hpres, hfind]
  simp [hst, hm]

/-- C3: upserting over an existing RunState row (by the owning user) takes
`currentState` and `currentPhase` from the input, while every optional field
omitted from the input (`phases`, `generatedFiles`, `conversationHistory`,
`sandboxId`, `previewUrl`) keeps its prior stored value in the returned and
persisted row. -/
theorem upsertForProject_merge_preserves_omitted (db : Db) (input : UpsertAgentStateInput)
    (now : Nat) (st : AgentState)
    (hacc : canAccessProject db input.projectId input.userId = true)
    (hfind : db.agentStates.find? (fun s => s.projectId == input.projectId) = some st) :
    ∃ merged,
      (AgentStatesRepository.upsertForProject db input now).2 = some merged ∧
      (AgentStatesRepository.upsertForProject db input now).1.agentStates.find?
        (fun s => s.projectId == input.projectId) = some merged ∧
      merged.currentState = input.currentState ∧
      merged.currentPhase = input.currentPhase ∧
      (input.phases = none → merged.phases = st.phases) ∧
      (input.generatedFiles = none → merged.generatedFiles = st.generatedFiles) ∧
      (input.conversationHistory = none →
        merged.conversationHistory = st.conversationHistory) ∧
      (input.sandboxId = none → merged.sandboxId = st.sandboxId) ∧
      (input.previewUrl = none → merged.previewUrl = st.previewUrl) := by
  refine ⟨AgentStatesRepository.mergedState st input now, ?_, ?_, rfl, rfl,
    ?_, ?_, ?_, ?_, ?_⟩
  · rw [upsertForProject_existing now hacc hfind]
  · rw [upsertForProject_existing now hacc hfind]
    exact find?_map_update hfind (by simpa using find?_some_pred hfind)
  · intro hnone
    simp [AgentStatesRepository.mergedState, hnone]
  · intro hnone
    simp [AgentStatesRepository.mergedState, hnone]
  · intro hnone
    simp [AgentStatesRepository.mergedState, hnone]
  · intro hnone
    simp [AgentStatesRepository.mergedState, hnone]
  · intro hnone
    simp [AgentStatesRepository.mergedState, hnone]

/-- C3 witness: upserting only `{currentState := "completed"}` over the
populated row `exGeneratingState` leaves `phases` (and the other omitted
fields) untouched. -/
theorem upsertForProject_merge_preserves_omitted_witness :
    ∃ merged,
      (AgentStatesRepository.upsertForProject exDbGenerating exStateOnlyInput 7).2 =
        some merged ∧
      (AgentStatesRepository.upsertForProject exDbGenerating exStateOnlyInput 7).1.agentStates.find?
        (fun s => s.projectId == exStateOnlyInput.projectId) = some merged ∧
      merged.currentState = exStateOnlyInput.currentState ∧
      merged.currentPhase = exStateOnlyInput.currentPhase ∧
      (exStateOnlyInput.phases = none → merged.phases = exGeneratingState.phases) ∧
      (exStateOnlyInput.generatedFiles = none →
        merged.generatedFiles = exGeneratingState.generatedFiles) ∧
      (exStateOnlyInput.conversationHistory = none →
        merged.conversationHistory = exGeneratingState.conversationHistory) ∧
      (exStateOnlyInput.sandboxId = none → merged.sandboxId = exGeneratingState.sandboxId) ∧
      (exStateOnlyInput.previewUrl = none →
        merged.previewUrl = exGeneratingState.previewUrl) :=
  upsertForProject_merge_preserves_omitted exDbGenerating exStateOnlyInput 7
    exGeneratingState (by decide) (by decide)

/-- C2 counterexample: stopping the populated `generating` run `p1` leaves the
persisted `generatedFiles` at `["src/main.ts"]` (the claim says it is cleared)
and sets the persisted `phases` to `[]` (the claim says it is preserved, and
it was `[exPhase] ≠ []` before). -/
theorem stopGeneration_claim_counterexample :
    ((handleStopGeneration exDbGenerating exConn 5).1.agentStates.map
        (fun s => s.generatedFiles) = [["src/main.ts"]]) ∧
    ((handleStopGeneration exDbGenerating exConn 5).1.agentStates.map
        (fun s => s.phases) = [[]]) ∧
    exGeneratingState.generatedFiles ≠ [] ∧
    exGeneratingState.phases ≠ [] := by
  refine ⟨by decide, by decide, by decide, by decide⟩

/-- C2 (amended): handling `stop_generation` on a `generating` RunState row
persists exactly `currentState := "idle"`, `currentPhase := null`,
`phases := []` and a refreshed `updatedAt`, preserving every other stored
field — in particular `generatedFiles`, `previewUrl`, `sandboxId` and
`conversationHistory` keep their prior values (the source clears `phases`,
not `generatedFiles`). -/
theorem stopGeneration_frame (db : Db) (conn : ProjectWebSocketConnection) (now : Nat)
    (st : AgentState)
    (hst : AgentStatesRepository.getByProjectForUser db conn.projectId conn.userId = some st)
    (hgen : st.currentState = "generating") :
    (handleStopGeneration db conn now).1.agentStates.find?
        (fun s => s.projectId == conn.projectId) =
      some { st with currentState := "idle", currentPhase := none, phases := [],
                     updatedAt := now } := by
  obtain ⟨hacc, hfind⟩ := getByProjectForUser_some hst
  unfold handleStopGeneration
  simp only [hst, hgen, bne_self_eq_false, Bool.false_eq_true, if_false]
  rw [upsertForProject_existing now hacc hfind]
  exact find?_map_update hfind (by simpa using find?_some_pred hfind)

/-- C2 witness: the amended theorem evaluated on the populated `generating`
run. -/
theorem stopGeneration_frame_witness :
    (handleStopGeneration exDbGenerating exConn 5).1.agentStates.find?
        (fun s => s.projectId == exConn.projectId) =
      some { exGeneratingState with currentState := "idle", currentPhase := none,
                                    phases := [], updatedAt := 5 } :=
  stopGeneration_frame exDbGenerating exConn 5 exGeneratingState (by decide) rfl

/-- C4: when the persisted RunState of an accessible project is already
`generating`, `handleStartGeneration` emits a `generation_in_progress` error,
closes the socket with code 4000, and performs no write: the whole store is
returned unchanged. -/
theorem startGeneration_conflict_no_write (db : Db) (conn : ProjectWebSocketConnection)
    (now : Nat) (st : AgentState)
    (hst : AgentStatesRepository.getByProjectForUser db conn.projectId conn.userId = some st)
    (hgen : st.currentState = "generating") :
    handleStartGeneration db conn now =
      (db, errorAndClose .generationInProgress "Generation already in progress"
        4000 "Conflict") := by
  obtain ⟨hacc, hfind⟩ := getByProjectForUser_some hst
  obtain ⟨p, hp⟩ := getByIdForUser_isSome_of_canAccess hacc
  unfold handleStartGeneration
  simp only [hp, hst, hgen, beq_self_eq_true, if_true]

/-- C4 witness: a second `start_generation` against the already-`generating`
run is rejected with `generation_in_progress` and close code 4000, with the
store untouched. -/
theorem startGeneration_conflict_no_write_witness :
    handleStartGeneration exDbGenerating exConn 5 =
      (exDbGenerating, errorAndClose .generationInProgress
        "Generation already in progress" 4000 "Conflict") :=
  startGeneration_conflict_no_write exDbGenerating exConn 5 exGeneratingState
    (by decide) rfl

/-- C5 counterexample: for the project `p1` that has no RunState row yet, both
a first `start_generation` and a first `user_message` leave the agent-state
table empty — no row is inserted — and instead reply `internal_error` with
close code 4004. -/
theorem missing_runstate_no_insert_counterexample :
    (handleStartGeneration exDbBare exConn 3).1.agentStates = [] ∧
    (handleStartGeneration exDbBare exConn 3).2 =
      errorAndClose .internalError "Agent state not found" 4004 "Not Found" ∧
    (handleUserMessage exDbBare exConn "hello" 3 "t1").1.agentStates = [] ∧
    (handleUserMessage exDbBare exConn "hello" 3 "t1").2 =
      errorAndClose .internalError "Agent state not found" 4004 "Not Found" := by
  refine ⟨by decide, by decide, by decide, by decide⟩

/-- C5 (amended): when an accessible project has no RunState row,
`start_generation` and `user_message` do not insert one: both handlers return
the store unchanged and emit `internal_error` with close code 4004. -/
theorem missing_runstate_errors (db : Db) (conn : ProjectWebSocketConnection)
    (now : Nat) (content timestamp : String) (p : Project)
    (hp : ProjectsRepository.getByIdForUser db conn.projectId conn.userId = some p)
    (hnone : AgentStatesRepository.getByProjectForUser db conn.projectId conn.userId = none) :
    handleStartGeneration db conn now =
      (db, errorAndClose .internalError "Agent state not found" 4004 "Not Found") ∧
    handleUserMessage db conn content now timestamp =
      (db, errorAndClose .internalError "Agent state not found" 4004 "Not Found") := by
  constructor
  · unfold handleStartGeneration
    simp only [hp, hnone]
  · unfold handleUserMessage
    simp only [hnone]

/-- C5 witness: the amended theorem evaluated on the store holding project
`p1` and no agent state. -/
theorem missing_runstate_errors_witness :
    handleStartGeneration exDbBare exConn 3 =
      (exDbBare, errorAndClose .internalError "Agent state not found" 4004 "Not Found") ∧
    handleUserMessage exDbBare exConn "hello" 3 "t1" =
      (exDbBare, errorAndClose .internalError "Agent state not found" 4004 "Not Found") :=
  missing_runstate_errors exDbBare exConn 3 "hello" "t1" exProject1 (by decide) (by decide)

/-- C6 counterexample: an envelope with no `type` field, and one whose `type`
is the number 5, are both rejected with code `invalid_message` — not with
`unknown_message_type` as the claim states. -/
theorem validator_missing_type_counterexample :
    validateClientMessage (.ok (Json.obj [])) =
      .error ⟨.invalidMessage, "WebSocket message \"type\" must be a string"⟩ ∧
    validateClientMessage (.ok (Json.obj [("type", Json.num 5)])) =
      .error ⟨.invalidMessage, "WebSocket message \"type\" must be a string"⟩ ∧
    WsErrorCode.invalidMessage ≠ WsErrorCode.unknownMessageType :=
  ⟨rfl, rfl, by decide⟩

/-- C6 (amended): on a payload that parses as an object, a `type` field that
is missing or not a string yields `invalid_message`, while a string `type`
outside the closed five-command set yields `unknown_message_type` whose
message carries the offending type string. -/
theorem validator_type_error_codes (fields : List (String × Json)) :
    ((∀ s, jsonLookup fields "type" ≠ some (.str s)) →
      validateClientMessage (.ok (.obj fields)) =
        .error ⟨.invalidMessage, "WebSocket message \"type\" must be a string"⟩) ∧
    (∀ ty, jsonLookup fields "type" = some (.str ty) →
      CLIENT_MESSAGE_TYPES.contains ty = false →
      validateClientMessage (.ok (.obj fields)) =
        .error ⟨.unknownMessageType, "Unknown message type \"" ++ ty ++ "\""⟩) := by
  constructor
  · intro hno
    unfold validateClientMessage
    cases hl : jsonLookup fields "type" with
    | none => simp only [toPlainObject, hl]
    | some j =>
      cases j with
      | str s => exact absurd hl (hno s)
      | null => simp only [toPlainObject, hl]
      | bool b => simp only [toPlainObject, hl]
      | num n => simp only [toPlainObject, hl]
      | arr elems => simp only [toPlainObject, hl]
      | obj fs => simp only [toPlainObject, hl]
  · intro ty hty hcontains
    unfold validateClientMessage
    simp only [toPlainObject, hty, hcontains, Bool.false_eq_true, if_false]

/-- C6 witness: the amended theorem evaluated on an envelope without a `type`
field and on one whose `type` is the unknown string `totally_unknown`. -/
theorem validator_type_error_codes_witness :
    validateClientMessage (.ok (Json.obj [("foo", Json.null)])) =
      .error ⟨.invalidMessage, "WebSocket message \"type\" must be a string"⟩ ∧
    validateClientMessage (.ok (Json.obj [("type", Json.str "totally_unknown")])) =
      .error ⟨.unknownMessageType, "Unknown message type \"totally_unknown\""⟩ :=
  ⟨(validator_type_error_codes [("foo", Json.null)]).1
      (fun s h => Option.noConfusion h),
    (validator_type_error_codes [("type", Json.str "totally_unknown")]).2
      "totally_unknown" rfl (by decide)⟩

/-- C9 counterexample: `ProjectsRepository.create` on an id that already
exists surfaces the raw store unique-violation error, not the distinguished
`UniqueConstraintError` kind the claim requires. -/
theorem create_raw_unique_violation_counterexample :
    ProjectsRepository.create exDbBare exDupCreateInput 4 =
      .error (.store (.uniqueViolation "projects_pkey")) ∧
    surfacesUniqueConstraint (ProjectsRepository.create exDbBare exDupCreateInput 4) = false := by
  refine ⟨rfl, rfl⟩

/-- C9 (amended): the non-upsert `ProjectsRepository.create` has no
translation handler and propagates the raw store error on a duplicate key,
while the project-file upsert paths catch and wrap it: an unabsorbed
duplicate-key violation during `upsertFile` surfaces as `UniqueConstraintError`,
and the same violation hit inside `upsertMany`'s transaction surfaces as the
batch-level `UniqueConstraintError`. -/
theorem unique_violation_translation_boundary (db : Db) (cinput : CreateProjectInput)
    (finput : UpsertProjectFileInput) (rest : List UpsertProjectFileInput) (now : Nat)
    (hdup : db.projects.any (fun p => p.id == cinput.id) = true)
    (hacc : canAccessProject db finput.projectId finput.userId = true)
    (hnokey : db.projectFiles.find?
        (fun f => f.projectId == finput.projectId && f.path == finput.path) = none)
    (hid : db.projectFiles.any (fun f => f.id == finput.id) = true) :
    ProjectsRepository.create db cinput now =
      .error (.store (.uniqueViolation "projects_pkey")) ∧
    ProjectFilesRepository.upsertFile db finput now =
      .error (.uniqueConstraint
        ("Duplicate file write detected for " ++ finput.projectId ++ ":" ++ finput.path)
        (.uniqueViolation "project_files_pkey")) ∧
    ProjectFilesRepository.upsertMany db (finput :: rest) now =
      .error (.uniqueConstraint "Bulk project file upsert violated a unique constraint"
        (.uniqueViolation "project_files_pkey")) := by
  have howns : ownsFileInput db.projects finput = true := hacc
  refine ⟨?_, ?_, ?_⟩
  · unfold ProjectsRepository.create
    rw [if_pos hdup]
  · unfold ProjectFilesRepository.upsertFile
    simp only [hacc, Bool.not_true, Bool.false_eq_true, if_false, hnokey]
    rw [if_pos hid]
  · unfold ProjectFilesRepository.upsertMany
    rw [if_neg (by simp)]
    unfold ProjectFilesRepository.upsertManyGo
    rw [if_pos howns, hnokey, if_pos hid]
    rfl

/-- C9 witness: the amended theorem evaluated on the store holding project
`p1` and the file row `f1`: a duplicate `create` of `p1` surfaces the raw
store error, while both `upsertFile` and a one-element `upsertMany` reusing
id `f1` on a fresh path surface the wrapped `UniqueConstraintError`. -/
theorem unique_violation_translation_boundary_witness :
    ProjectsRepository.create exDbWithFile exDupCreateInput 4 =
      .error (.store (.uniqueViolation "projects_pkey")) ∧
    ProjectFilesRepository.upsertFile exDbWithFile exDupIdFileInput 4 =
      .error (.uniqueConstraint
        ("Duplicate file write detected for " ++ exDupIdFileInput.projectId ++ ":" ++
          exDupIdFileInput.path)
        (.uniqueViolation "project_files_pkey")) ∧
    ProjectFilesRepository.upsertMany exDbWithFile [exDupIdFileInput] 4 =
      .error (.uniqueConstraint "Bulk project file upsert violated a unique constraint"
        (.uniqueViolation "project_files_pkey")) :=
  unique_violation_translation_boundary exDbWithFile exDupCreateInput exDupIdFileInput
    [] 4 (by decide) (by decide) (by decide) (by decide)

theorem one_le_length_iff_ne_empty (s : String) : 1 ≤ s.length ↔ s ≠ "" := by
  cases s with
  | mk data =>
    cases data with
    | nil => simp [String.length]
    | cons c cs =>
      constructor
      · intro _ h
        have : (c :: cs : List Char) = [] := congrArg String.data h
        cases this
      · intro _
        show 1 ≤ (c :: cs).length
        simp

/-- The envelope dispatch of `validateClientMessage` on a well-formed
`user_message` frame reduces to the zod parse of its `data` object. -/
theorem validate_userMessageEnvelope (dataFields : List (String × Json)) :
    validateClientMessage (.ok (userMessageEnvelope dataFields)) =
      (match userMessageDataSchemaParse dataFields with
       | some content => .ok (.userMessage content)
       | none =>
         .error ⟨.invalidMessageData,
           "\"user_message\" requires data.content as a non-empty string"⟩) := rfl

/-- C8: a well-formed `user_message` envelope validates successfully exactly
when `data.content` is a string that is non-empty after trimming; otherwise
the validator answers `invalid_message_data` (so whitespace-only content such
as `"   "` is rejected). -/
theorem userMessage_validation (dataFields : List (String × Json)) :
    (userMessageDataSchemaParse dataFields = none →
      validateClientMessage (.ok (userMessageEnvelope dataFields)) =
        .error ⟨.invalidMessageData,
          "\"user_message\" requires data.content as a non-empty string"⟩) ∧
    (∀ content, userMessageDataSchemaParse dataFields = some content →
      validateClientMessage (.ok (userMessageEnvelope dataFields)) =
        .ok (.userMessage content)) ∧
    (userMessageDataSchemaParse dataFields = none ↔
      ¬ ∃ s, jsonLookup dataFields "content" = some (.str s) ∧ jsTrim s ≠ "") := by
  refine ⟨?_, ?_, ?_⟩
  · intro hnone
    rw [validate_userMessageEnvelope, hnone]
  · intro content hsome
    rw [validate_userMessageEnvelope, hsome]
  · unfold userMessageDataSchemaParse
    cases hl : jsonLookup dataFields "content" with
    | none => simp [hl]
    | some j =>
      cases j with
      | str s =>
        by_cases hs : jsTrim s = ""
        · have : ¬ 1 ≤ (jsTrim s).length := by
            rw [one_le_length_iff_ne_empty]
            simpa using hs
          simp [hl, this, hs]
        · have : 1 ≤ (jsTrim s).length := (one_le_length_iff_ne_empty _).mpr hs
          simp [hl, this, hs]
      | null => simp [hl]
      | bool b => simp [hl]
      | num n => simp [hl]
      | arr elems => simp [hl]
      | obj fs => simp [hl]

/-- C8 witness: the theorem evaluated on whitespace-only content (rejected
with `invalid_message_data`) and on `"  hi  "` (accepted as `"hi"`). -/
theorem userMessage_validation_witness :
    validateClientMessage (.ok (userMessageEnvelope [("content", Json.str "   ")])) =
      .error ⟨.invalidMessageData,
        "\"user_message\" requires data.content as a non-empty string"⟩ ∧
    validateClientMessage (.ok (userMessageEnvelope [("content", Json.str "  hi  ")])) =
      .ok (.userMessage "hi") :=
  ⟨(userMessage_validation [("content", Json.str "   ")]).1 rfl,
    (userMessage_validation [("content", Json.str "  hi  ")]).2.1 "hi" rfl⟩

/-- C10: a valid `user_message` carries the trimmed content: the validator
returns `jsTrim s` for a sent string `s`, and `handleUserMessage` appends a
`{role := "user"}` message with exactly that trimmed content to the persisted
conversation history (leaving every other stored field except `updatedAt`
unchanged). -/
theorem userMessage_content_trimmed (db : Db) (conn : ProjectWebSocketConnection)
    (dataFields : List (String × Json)) (s : String) (now : Nat) (ts : String)
    (st : AgentState)
    (hc : jsonLookup dataFields "content" = some (.str s))
    (htrim : jsTrim s ≠ "")
    (hst : AgentStatesRepository.getByProjectForUser db conn.projectId conn.userId = some st) :
    validateClientMessage (.ok (userMessageEnvelope dataFields)) =
      .ok (.userMessage (jsTrim s)) ∧
    (handleUserMessage db conn (jsTrim s) now ts).1.agentStates.find?
        (fun x => x.projectId == conn.projectId) =
      some { st with
              conversationHistory := st.conversationHistory ++ [⟨"user", jsTrim s, ts⟩],
              updatedAt := now } := by
  obtain ⟨hacc, hfind⟩ := getByProjectForUser_some hst
  constructor
  · have hparse : userMessageDataSchemaParse dataFields = some (jsTrim s) := by
      unfold userMessageDataSchemaParse
      rw [hc]
      simp only [if_pos ((one_le_length_iff_ne_empty _).mpr htrim)]
    rw [validate_userMessageEnvelope, hparse]
  · unfold handleUserMessage
    simp only [hst]
    rw [upsertForProject_existing now hacc hfind]
    exact find?_map_update hfind (by simpa using find?_some_pred hfind)

/-- C10 witness: the theorem evaluated for content `"  hi  "` against the
populated run: the validated content is `"hi"` and the appended history entry
stores `"hi"`. -/
theorem userMessage_content_trimmed_witness :
    validateClientMessage (.ok (userMessageEnvelope [("content", Json.str "  hi  ")])) =
      .ok (.userMessage (jsTrim "  hi  ")) ∧
    (handleUserMessage exDbGenerating exConn (jsTrim "  hi  ") 7 "t9").1.agentStates.find?
        (fun x => x.projectId == exConn.projectId) =
      some { exGeneratingState with
              conversationHistory :=
                exGeneratingState.conversationHistory ++ [⟨"user", jsTrim "  hi  ", "t9"⟩],
              updatedAt := 7 } :=
  userMessage_content_trimmed exDbGenerating exConn [("content", Json.str "  hi  ")]
    "  hi  " 7 "t9" exGeneratingState rfl (by decide) (by decide)

theorem key_beq_eq {pid1 pa1 pid2 pa2 : String}
    (h : (pid1 == pid2 && pa1 == pa2) = true) : pid1 = pid2 ∧ pa1 = pa2 := by
  simpa [Bool.and_eq_true] using h

theorem key_beq_false {pid1 pa1 pid2 pa2 : String}
    (h : ¬(pid1 = pid2 ∧ pa1 = pa2)) : (pid1 == pid2 && pa1 == pa2) = false := by
  by_cases h1 : pid1 = pid2
  · by_cases h2 : pa1 = pa2
    · exact absurd ⟨h1, h2⟩ h
    · simp [h2]
  · simp [h1]

theorem filter_map_eq {α : Type} {p : α → Bool} {f : α → α} :
    ∀ {l : List α}, (∀ x ∈ l, p x = true → f x = x) → (∀ x ∈ l, p (f x) = p x) →
      (l.map f).filter p = l.filter p := by
  intro l
  induction l with
  | nil => intro _ _; rfl
  | cons x xs ih =>
    intro h1 h2
    have hrec := ih (fun y hy => h1 y (List.mem_cons_of_mem _ hy))
      (fun y hy => h2 y (List.mem_cons_of_mem _ hy))
    simp only [List.map_cons, List.filter_cons]
    rw [h2 x (List.mem_cons_self _ _)]
    by_cases hx : p x = true
    · rw [hx, if_pos rfl, if_pos rfl, h1 x (List.mem_cons_self _ _) hx, hrec]
    · have hx' : p x = false := by simpa using hx
      rw [hx', if_neg (by simp), if_neg (by simp), hrec]

theorem countP_all_but_one {α : Type} [DecidableEq α] {p : α → Bool} {f : α} :
    ∀ {l : List α}, l.count f = 1 → p f = false →
      (∀ g ∈ l, g ≠ f → p g = true) → l.countP p = l.length - 1 := by
  intro l
  induction l with
  | nil => intro h _ _; simp at h
  | cons x xs ih =>
    intro hcount hpf hrest
    by_cases hx : x = f
    · subst hx
      have hzero : xs.count x = 0 := by
        rw [List.count_cons_self] at hcount
        omega
      have hnot : x ∉ xs := List.count_eq_zero.mp hzero
      have hall : ∀ g ∈ xs, p g = true := by
        intro g hg
        exact hrest g (List.mem_cons_of_mem _ hg) (fun he => hnot (he ▸ hg))
      rw [List.countP_cons_of_neg _ _ (by simp [hpf]), List.countP_eq_length.mpr hall]
      simp
    · have hpx : p x = true := hrest x (List.mem_cons_self _ _) hx
      have hcount' : xs.count f = 1 := by
        rw [List.count_cons] at hcount
        have hne : (x == f) = false := beq_eq_false_iff_ne.mpr hx
        simp only [hne, Bool.false_eq_true, if_false] at hcount
        omega
      have hmemf : f ∈ xs := by
        by_contra hn
        rw [List.count_eq_zero.mpr hn] at hcount'
        omega
      have hlenpos : 1 ≤ xs.length := List.length_pos_of_mem hmemf
      rw [List.countP_cons_of_pos _ _ hpx,
        ih hcount' hpf (fun g hg hne => hrest g (List.mem_cons_of_mem _ hg) hne)]
      simp only [List.length_cons]
      omega

theorem upsertManyGo_count (projectRows : List Project) (now : Nat) :
    ∀ (inputs : List UpsertProjectFileInput) (files : List ProjectFile) (changed : Nat)
      {files' : List ProjectFile} {n : Nat},
      ProjectFilesRepository.upsertManyGo projectRows files inputs now changed =
        .ok (files', n) →
      n = changed + inputs.countP (ownsFileInput projectRows) := by
  intro inputs
  induction inputs with
  | nil =>
    intro files changed files' n h
    unfold ProjectFilesRepository.upsertManyGo at h
    simp only [Except.ok.injEq, Prod.mk.injEq] at h
    simp [← h.2]
  | cons file rest ih =>
    intro files changed files' n h
    unfold ProjectFilesRepository.upsertManyGo at h
    by_cases howned : ownsFileInput projectRows file = true
    · rw [if_pos howned] at h
      cases hf : files.find?
          (fun x => x.projectId == file.projectId && x.path == file.path) with
      | some existing =>
        rw [hf] at h
        rw [ih _ _ h, List.countP_cons_of_pos _ _ howned]
        omega
      | none =>
        rw [hf] at h
        by_cases hcol : files.any (fun x => x.id == file.id) = true
        · rw [if_pos hcol] at h
          cases h
        · rw [if_neg hcol] at h
          rw [ih _ _ h, List.countP_cons_of_pos _ _ howned]
          omega
    · rw [if_neg howned] at h
      rw [ih _ _ h, List.countP_cons_of_neg _ _ (by simp [howned])]

theorem upsertManyGo_foreign_rows (projectRows : List Project) (now : Nat) (P pa : String) :
    ∀ (inputs : List UpsertProjectFileInput) (files : List ProjectFile) (changed : Nat)
      {files' : List ProjectFile} {n : Nat},
      ProjectFilesRepository.upsertManyGo projectRows files inputs now changed =
        .ok (files', n) →
      (∀ g ∈ inputs, g.projectId = P ∧ g.path = pa → ownsFileInput projectRows g = false) →
      files'.filter (fun r => r.projectId == P && r.path == pa) =
        files.filter (fun r => r.projectId == P && r.path == pa) := by
  intro inputs
  induction inputs with
  | nil =>
    intro files changed files' n h _
    unfold ProjectFilesRepository.upsertManyGo at h
    simp only [Except.ok.injEq, Prod.mk.injEq] at h
    rw [← h.1]
  | cons file rest ih =>
    intro files changed files' n h hkeys
    have hkeys' : ∀ g ∈ rest, g.projectId = P ∧ g.path = pa →
        ownsFileInput projectRows g = false :=
      fun g hg => hkeys g (List.mem_cons_of_mem _ hg)
    unfold ProjectFilesRepository.upsertManyGo at h
    by_cases howned : ownsFileInput projectRows file = true
    · have hfile : ¬(file.projectId = P ∧ file.path = pa) := by
        intro hc
        rw [hkeys file (List.mem_cons_self _ _) hc] at howned
        exact Bool.noConfusion howned
      rw [if_pos howned] at h
      cases hf : files.find?
          (fun x => x.projectId == file.projectId && x.path == file.path) with
      | some existing =>
        rw [hf] at h
        rw [ih _ _ h hkeys']
        have hex : existing.projectId = file.projectId ∧ existing.path = file.path :=
          key_beq_eq (by simpa using find?_some_pred hf)
        apply filter_map_eq
        · intro x _ hpx
          have hxkey := key_beq_eq hpx
          have hg : (x.projectId == file.projectId && x.path == file.path) = false := by
            apply key_beq_false
            intro hc
            exact hfile ⟨hc.1.symm.trans hxkey.1, hc.2.symm.trans hxkey.2⟩
          simp only [hg, Bool.false_eq_true, if_false]
        · intro x _
          by_cases hg : (x.projectId == file.projectId && x.path == file.path) = true
          · have hxkey := key_beq_eq hg
            rw [if_pos hg]
            show ((existing.projectId == P && existing.path == pa) : Bool) =
              (x.projectId == P && x.path == pa)
            have h1 : (existing.projectId == P && existing.path == pa) = false := by
              apply key_beq_false
              intro hc
              exact hfile ⟨hex.1.symm.trans hc.1, hex.2.symm.trans hc.2⟩
            have h2 : (x.projectId == P && x.path == pa) = false := by
              apply key_beq_false
              intro hc
              exact hfile ⟨hxkey.1.symm.trans hc.1, hxkey.2.symm.trans hc.2⟩
            rw [h1, h2]
          · rw [if_neg hg]
      | none =>
        rw [hf] at h
        by_cases hcol : files.any (fun x => x.id == file.id) = true
        · rw [if_pos hcol] at h
          cases h
        · rw [if_neg hcol] at h
          rw [ih _ _ h hkeys', List.filter_append]
          simp only [List.filter_cons, List.filter_nil]
          rw [if_neg (fun hc => hfile (key_beq_eq hc))]
          rw [List.append_nil]
    · rw [if_neg howned] at h
      exact ih _ _ h hkeys'

/-- C7: over a batch in which exactly one input references a project its
`userId` does not own and every other input is owned, a successful
`upsertMany` returns a changed-count of exactly N−1, and the rows at the
foreign input's `(projectId, path)` target are exactly as before — the
foreign input neither lands nor aborts the rest of the batch. -/
theorem upsertMany_partial_success (db : Db) (inputs : List UpsertProjectFileInput)
    (f : UpsertProjectFileInput) (db' : Db) (n now : Nat)
    (hok : ProjectFilesRepository.upsertMany db inputs now = .ok (db', n))
    (hmem : f ∈ inputs)
    (hcount : inputs.count f = 1)
    (hforeign : ownsFileInput db.projects f = false)
    (hrest : ∀ g ∈ inputs, g ≠ f → ownsFileInput db.projects g = true)
    (hkeys : ∀ g ∈ inputs, g ≠ f → ¬(g.projectId = f.projectId ∧ g.path = f.path)) :
    n = inputs.length - 1 ∧
    db'.projectFiles.filter
        (fun r => r.projectId == f.projectId && r.path == f.path) =
      db.projectFiles.filter
        (fun r => r.projectId == f.projectId && r.path == f.path) := by
  have hkeyall : ∀ g ∈ inputs, g.projectId = f.projectId ∧ g.path = f.path →
      ownsFileInput db.projects g = false := by
    intro g hg hkey
    by_cases hgf : g = f
    · subst hgf
      exact hforeign
    · exact absurd hkey (hkeys g hg hgf)
  unfold ProjectFilesRepository.upsertMany at hok
  have hne : inputs ≠ [] := List.ne_nil_of_mem hmem
  rw [if_neg (by simp [List.isEmpty_iff, hne])] at hok
  cases hgo : ProjectFilesRepository.upsertManyGo db.projects db.projectFiles inputs now 0 with
  | error e =>
    rw [hgo] at hok
    cases hok
  | ok res =>
    obtain ⟨files', cnt⟩ := res
    rw [hgo] at hok
    simp only [Except.map, Except.ok.injEq, Prod.mk.injEq] at hok
    obtain ⟨hdb, hn⟩ := hok
    constructor
    · rw [← hn, upsertManyGo_count db.projects now inputs db.projectFiles 0 hgo]
      have hcnt := countP_all_but_one hcount hforeign hrest
      omega
    · rw [← hdb]
      exact upsertManyGo_foreign_rows db.projects now f.projectId f.path inputs
        db.projectFiles 0 hgo hkeyall

/-- C7 witness: the theorem evaluated on the batch `[A, foreign, C]` against
the store holding only project `p1`: the count is 2 = 3 − 1 and no row at the
foreign target exists before or after. -/
theorem upsertMany_partial_success_witness :
    (2 : Nat) = [exBulkInputA, exBulkInputForeign, exBulkInputC].length - 1 ∧
    exDbAfterBulk.projectFiles.filter
        (fun r => r.projectId == exBulkInputForeign.projectId &&
          r.path == exBulkInputForeign.path) =
      exDbBare.projectFiles.filter
        (fun r => r.projectId == exBulkInputForeign.projectId &&
          r.path == exBulkInputForeign.path) :=
  upsertMany_partial_success exDbBare [exBulkInputA, exBulkInputForeign, exBulkInputC]
    exBulkInputForeign exDbAfterBulk 2 9 rfl (by decide) (by decide) (by decide)
    (by decide) (by decide)

end Minicode
